import Mathlib

/-!
Verification development for the twilio-ws repository.

The definitions below are shallow embeddings of the TypeScript sources:

* `TwilioWs.StreamState` and friends embed `services/streamService.ts`
  (class `StreamService`): the fragment sequencer with its
  `expectedAudioIndex` cursor and `audioBuffer` record.
* `TwilioWs.GptState` and friends embed `services/gptService.ts`
  (class `GptService`): the streamed-reply fragmenter.
* `TwilioWs.ttsGenerate` embeds `src/services/ttsService.ts`
  (`TtsService.generate`).
* `TwilioWs.onUtterance` embeds the interruption handler installed by
  `setupEventListeners` in `src/services/wsManagerService.ts` (lines 641-649).
* `TwilioWs.getWebSocketConfigByPhone`, `TwilioWs.handleStreamStart`,
  `TwilioWs.fromRequest`, `TwilioWs.toWebSocketConfig` and
  `TwilioWs.serviceCreateConfig` embed the configuration lookup, the
  stream-start handler, and the HTTP create path.

Effects are made explicit: event emissions and websocket sends become
returned lists, the `axios` / OpenAI round trips become an outcome argument,
and the mutable `this` state becomes explicit state passing.
-/

namespace TwilioWs

/-! ### Fragment sequencer: `StreamService` (services/streamService.ts)

The `audioBuffer` JS object (`Record<number, string>`) is modelled as an
association list in which an assignment `audioBuffer[i] = a` conses `(i, a)`
in front; `lookupBuf` returns the first binding, which matches JS overwrite
semantics, and `hasOwnProperty` is `lookupBuf ... ≠ none`.  Entries are never
deleted, exactly as in the source (the drain loop of `buffer` has no
`delete`). -/

/-- A frame handed to the transport by `sendAudio`: the audio payload plus
provenance, namely the value of `expectedAudioIndex` read at the moment of
the send (`none` for an immediate-sentinel send, which reads no index). -/
structure Frame where
  slot : Option Nat
  payload : String
deriving DecidableEq, Repr

/-- State of one `StreamService` instance (constructor of
`services/streamService.ts`): the cursor starts at `0` and the buffer empty. -/
structure StreamState where
  expectedAudioIndex : Nat
  audioBuffer : List (Nat × String)
deriving DecidableEq, Repr

/-- Fresh sequencer state, as set up by the `StreamService` constructor. -/
def StreamState.init : StreamState := ⟨0, []⟩

/-- First binding for key `i` in the association list, i.e. the value of
`audioBuffer[i]` under JS overwrite semantics. -/
def lookupBuf (buf : List (Nat × String)) (i : Nat) : Option String :=
  match buf with
  | [] => none
  | (k, a) :: rest => if k = i then some a else lookupBuf rest i

/-- Number of bindings with key at least `e`: the termination measure of the
drain loop of `buffer` (each iteration moves the cursor up past one such
binding). -/
def keysFrom (buf : List (Nat × String)) (e : Nat) : Nat :=
  match buf with
  | [] => 0
  | (k, _) :: rest => (if e ≤ k then 1 else 0) + keysFrom rest e

/-- The `while (hasOwnProperty(audioBuffer, expectedAudioIndex))` loop of
`StreamService.buffer`, with explicit fuel bounding the number of
iterations; `drain` instantiates the fuel with `keysFrom`, which
`drainFuel_spec` proves sufficient.  Note the loop reads `audioBuffer` but
never removes the entry it just sent. -/
def drainFuel (buf : List (Nat × String)) : Nat → Nat → List Frame → Nat × List Frame
  | 0, expected, acc => (expected, acc)
  | fuel + 1, expected, acc =>
    match lookupBuf buf expected with
    | some a => drainFuel buf fuel (expected + 1) (acc ++ [⟨some expected, a⟩])
    | none => (expected, acc)

/-- The drain loop of `StreamService.buffer`, starting at cursor `expected`
with the frames of `acc` already sent in this call. -/
def drain (buf : List (Nat × String)) (expected : Nat) (acc : List Frame) : Nat × List Frame :=
  drainFuel buf (keysFrom buf expected) expected acc

/-- `StreamService.buffer(index, audio)`: immediate sentinel (`index === null`)
is sent right away; the expected index is sent and the buffer drained; any
other index (greater or smaller than the cursor alike — the source has a
single `else`) is stored in the buffer.  Returns the new state together with
the frames handed to `sendAudio`, in order. -/
def StreamState.buffer (st : StreamState) (index : Option Nat) (audio : String) :
    StreamState × List Frame :=
  match index with
  | none => (st, [⟨none, audio⟩])
  | some i =>
    if i = st.expectedAudioIndex then
      let r := drain st.audioBuffer (st.expectedAudioIndex + 1)
        [⟨some st.expectedAudioIndex, audio⟩]
      ({ st with expectedAudioIndex := r.1 }, r.2)
    else
      ({ st with audioBuffer := (i, audio) :: st.audioBuffer }, [])

/-- `StreamService.clear()`: empties the buffer and resets the cursor. -/
def StreamState.clear (_st : StreamState) : StreamState :=
  { expectedAudioIndex := 0, audioBuffer := [] }

/-- A sequence of `buffer` submissions, returning the final state and the
concatenation of all frames handed to the transport. -/
def runBuffer (st : StreamState) (subs : List (Option Nat × String)) :
    StreamState × List Frame :=
  match subs with
  | [] => (st, [])
  | (index, audio) :: rest =>
    let r := st.buffer index audio
    let s := runBuffer r.1 rest
    (s.1, r.2 ++ s.2)

/-- The indices (cursor values) of the non-sentinel frames of an output, in
send order. -/
def sentSlots (out : List Frame) : List Nat := out.filterMap Frame.slot

theorem keysFrom_pos_of_lookup {buf : List (Nat × String)} {e : Nat} {a : String}
    (h : lookupBuf buf e = some a) : 0 < keysFrom buf e := by
  induction buf with
  | nil => simp [lookupBuf] at h
  | cons p rest ih =>
    obtain ⟨k, b⟩ := p
    by_cases hk : k = e
    · subst hk
      simp [keysFrom]
    · simp only [lookupBuf, if_neg hk] at h
      have := ih h
      simp only [keysFrom]
      omega

theorem keysFrom_succ_le (buf : List (Nat × String)) (e : Nat) :
    keysFrom buf (e + 1) ≤ keysFrom buf e := by
  induction buf with
  | nil => simp [keysFrom]
  | cons p rest ih =>
    obtain ⟨k, b⟩ := p
    simp only [keysFrom]
    by_cases h1 : e + 1 ≤ k
    · have h2 : e ≤ k := by omega
      simp [h1, h2]
      omega
    · by_cases h2 : e ≤ k <;> simp [h1, h2] <;> omega

theorem keysFrom_succ_lt {buf : List (Nat × String)} {e : Nat} {a : String}
    (h : lookupBuf buf e = some a) : keysFrom buf (e + 1) < keysFrom buf e := by
  induction buf with
  | nil => simp [lookupBuf] at h
  | cons p rest ih =>
    obtain ⟨k, b⟩ := p
    by_cases hk : k = e
    · subst hk
      have hle := keysFrom_succ_le rest k
      simp only [keysFrom]
      have h1 : ¬ (k + 1 ≤ k) := by omega
      simp [h1]
      omega
    · simp only [lookupBuf, if_neg hk] at h
      have := ih h
      simp only [keysFrom]
      by_cases h1 : e + 1 ≤ k
      · have h2 : e ≤ k := by omega
        simp [h1, h2]
        omega
      · by_cases h2 : e ≤ k <;> simp [h1, h2] <;> omega

theorem drainFuel_spec (buf : List (Nat × String)) :
    ∀ fuel e acc, keysFrom buf e ≤ fuel →
      ∃ e2, drainFuel buf fuel e acc =
          (e2, acc ++ (List.range' e (e2 - e)).map fun k => ⟨some k, (lookupBuf buf k).getD ""⟩) ∧
        e ≤ e2 ∧ lookupBuf buf e2 = none ∧
        ∀ k, e ≤ k → k < e2 → lookupBuf buf k ≠ none := by
  intro fuel
  induction fuel with
  | zero =>
    intro e acc hfuel
    refine ⟨e, ?_, le_refl e, ?_, ?_⟩
    · simp [drainFuel]
    · cases hl : lookupBuf buf e with
      | none => rfl
      | some a => exact absurd hfuel (by have := keysFrom_pos_of_lookup hl; omega)
    · intro k hk1 hk2
      omega
  | succ fuel ih =>
    intro e acc hfuel
    cases hl : lookupBuf buf e with
    | none =>
      refine ⟨e, ?_, le_refl e, hl, ?_⟩
      · simp [drainFuel, hl]
      · intro k hk1 hk2
        omega
    | some a =>
      have hrec : keysFrom buf (e + 1) ≤ fuel := by
        have := keysFrom_succ_lt hl
        omega
      obtain ⟨e2, heq, hle, hnone, hall⟩ := ih (e + 1) (acc ++ [⟨some e, a⟩]) hrec
      refine ⟨e2, ?_, by omega, hnone, ?_⟩
      · have hstep : drainFuel buf (fuel + 1) e acc =
            drainFuel buf fuel (e + 1) (acc ++ [⟨some e, a⟩]) := by
          simp [drainFuel, hl]
        rw [hstep, heq]
        have hrange : List.range' e (e2 - e) = e :: List.range' (e + 1) (e2 - (e + 1)) := by
          have h1 : e2 - e = (e2 - (e + 1)) + 1 := by omega
          rw [h1, List.range'_succ]
        rw [hrange]
        simp [hl, List.append_assoc]
      · intro k hk1 hk2
        rcases Nat.eq_or_lt_of_le hk1 with h | h
        · rw [← h, hl]
          simp
        · exact hall k h hk2

/-- In one `buffer` call the cursor never moves down, and the indexed frames
sent are exactly the cursor positions passed, in increasing order. -/
theorem buffer_slots (st : StreamState) (index : Option Nat) (audio : String) :
    st.expectedAudioIndex ≤ (st.buffer index audio).1.expectedAudioIndex ∧
      sentSlots (st.buffer index audio).2 =
        List.range' st.expectedAudioIndex
          ((st.buffer index audio).1.expectedAudioIndex - st.expectedAudioIndex) := by
  match index with
  | none =>
    simp [StreamState.buffer, sentSlots, Frame.slot]
  | some i =>
    by_cases hi : i = st.expectedAudioIndex
    · obtain ⟨e2, heq, hle, _hnone, _hall⟩ :=
        drainFuel_spec st.audioBuffer (keysFrom st.audioBuffer (st.expectedAudioIndex + 1))
          (st.expectedAudioIndex + 1) [⟨some st.expectedAudioIndex, audio⟩] (le_refl _)
      have hbuf : st.buffer (some i) audio =
          ({ st with expectedAudioIndex := e2 },
            ⟨some st.expectedAudioIndex, audio⟩ ::
              (List.range' (st.expectedAudioIndex + 1) (e2 - (st.expectedAudioIndex + 1))).map
                fun k => ⟨some k, (lookupBuf st.audioBuffer k).getD ""⟩) := by
        simp only [StreamState.buffer, if_pos hi, drain, heq]
        simp
      rw [hbuf]
      constructor
      · simpa using by omega
      · simp only [sentSlots, List.filterMap_cons, Frame.slot, List.filterMap_map]
        have hcomp : (Frame.slot ∘ fun k =>
            (⟨some k, (lookupBuf st.audioBuffer k).getD ""⟩ : Frame)) = some := by
          funext k
          rfl
        rw [hcomp, List.filterMap_some]
        have h1 : e2 - st.expectedAudioIndex = (e2 - (st.expectedAudioIndex + 1)) + 1 := by
          omega
        rw [h1, List.range'_succ]
    · simp [StreamState.buffer, hi, sentSlots]

/-- Over any run, the cursor never moves down, and the indexed frames sent
are exactly the cursor positions passed, each exactly once and in increasing
order. -/
theorem runBuffer_slots (subs : List (Option Nat × String)) : ∀ st : StreamState,
    st.expectedAudioIndex ≤ (runBuffer st subs).1.expectedAudioIndex ∧
      sentSlots (runBuffer st subs).2 =
        List.range' st.expectedAudioIndex
          ((runBuffer st subs).1.expectedAudioIndex - st.expectedAudioIndex) := by
  induction subs with
  | nil =>
    intro st
    simp [runBuffer, sentSlots]
  | cons sub rest ih =>
    intro st
    obtain ⟨index, audio⟩ := sub
    obtain ⟨h1, h2⟩ := buffer_slots st index audio
    obtain ⟨h3, h4⟩ := ih (st.buffer index audio).1
    have hrun : runBuffer st ((index, audio) :: rest) =
        ((runBuffer (st.buffer index audio).1 rest).1,
          (st.buffer index audio).2 ++ (runBuffer (st.buffer index audio).1 rest).2) := rfl
    rw [hrun]
    constructor
    · simp only
      omega
    · simp only [sentSlots, List.filterMap_append]
      rw [← sentSlots, ← sentSlots, h2, h4]
      have hmid : (st.buffer index audio).1.expectedAudioIndex =
          st.expectedAudioIndex + ((st.buffer index audio).1.expectedAudioIndex -
            st.expectedAudioIndex) := by omega
      have := List.range'_append st.expectedAudioIndex
        ((st.buffer index audio).1.expectedAudioIndex - st.expectedAudioIndex)
        ((runBuffer (st.buffer index audio).1 rest).1.expectedAudioIndex -
          (st.buffer index audio).1.expectedAudioIndex) 1
      simp only [one_mul] at this
      rw [← hmid] at this
      rw [this]
      congr 1
      omega

/-- Invariant tying a sequencer state to the set `S` of indices submitted so
far (each exactly once, with payload `f i`): everything below the cursor was
submitted, the cursor itself was not, the buffer holds only submitted
payloads, and every submitted index at or above the cursor is in the buffer. -/
def SeqInv (f : Nat → String) (S : List Nat) (st : StreamState) : Prop :=
  (∀ k, k < st.expectedAudioIndex → k ∈ S) ∧
  st.expectedAudioIndex ∉ S ∧
  (∀ i a, lookupBuf st.audioBuffer i = some a → i ∈ S ∧ a = f i) ∧
  (∀ i, i ∈ S → st.expectedAudioIndex ≤ i → lookupBuf st.audioBuffer i = some (f i))

theorem buffer_step_inv (f : Nat → String) (S : List Nat) (st : StreamState) (j : Nat)
    (hInv : SeqInv f S st) (hj : j ∉ S) :
    SeqInv f (j :: S) (st.buffer (some j) (f j)).1 ∧
      (st.buffer (some j) (f j)).2 =
        (List.range' st.expectedAudioIndex
          ((st.buffer (some j) (f j)).1.expectedAudioIndex - st.expectedAudioIndex)).map
          fun k => ⟨some k, f k⟩ := by
  obtain ⟨h1, h2, h3, h4⟩ := hInv
  by_cases hij : j = st.expectedAudioIndex
  · obtain ⟨e2, heq, hle, hnone, hall⟩ :=
      drainFuel_spec st.audioBuffer (keysFrom st.audioBuffer (st.expectedAudioIndex + 1))
        (st.expectedAudioIndex + 1) [⟨some st.expectedAudioIndex, f st.expectedAudioIndex⟩]
        (le_refl _)
    have hbuf : st.buffer (some j) (f j) =
        ({ st with expectedAudioIndex := e2 },
          ⟨some st.expectedAudioIndex, f st.expectedAudioIndex⟩ ::
            (List.range' (st.expectedAudioIndex + 1) (e2 - (st.expectedAudioIndex + 1))).map
              fun k => ⟨some k, (lookupBuf st.audioBuffer k).getD ""⟩) := by
      subst hij
      simp only [StreamState.buffer, if_pos rfl, drain, heq]
      simp
    refine ⟨?_, ?_⟩
    · rw [hbuf]
      refine ⟨?_, ?_, ?_, ?_⟩
      · intro k hk
        simp only at hk
        rcases Nat.lt_or_ge k st.expectedAudioIndex with h | h
        · exact List.mem_cons_of_mem _ (h1 k h)
        · rcases Nat.eq_or_lt_of_le h with h' | h'
          · rw [← h', hij]
            exact List.mem_cons_self _ _
          · have hk2 : lookupBuf st.audioBuffer k ≠ none := hall k h' hk
            cases hlk : lookupBuf st.audioBuffer k with
            | none => exact absurd hlk hk2
            | some a => exact List.mem_cons_of_mem _ (h3 k a hlk).1
      · simp only
        intro hmem
        rcases List.mem_cons.mp hmem with h | h
        · omega
        · have := h4 e2 h (by omega)
          rw [this] at hnone
          exact Option.noConfusion hnone
      · intro i a hlk
        simp only at hlk
        exact ⟨List.mem_cons_of_mem _ (h3 i a hlk).1, (h3 i a hlk).2⟩
      · intro i hmem hge
        simp only at hge ⊢
        rcases List.mem_cons.mp hmem with h | h
        · omega
        · exact h4 i h (by omega)
    · rw [hbuf]
      simp only
      have h5 : e2 - st.expectedAudioIndex = (e2 - (st.expectedAudioIndex + 1)) + 1 := by omega
      rw [h5, List.range'_succ, List.map_cons]
      congr 1
      apply List.map_congr_left
      intro k hk
      rw [List.mem_range'_1] at hk
      have hk2 : lookupBuf st.audioBuffer k ≠ none := hall k hk.1 (by omega)
      cases hlk : lookupBuf st.audioBuffer k with
      | none => exact absurd hlk hk2
      | some a =>
        have := (h3 k a hlk).2
        simp [hlk, this]
  · have hgt : st.expectedAudioIndex < j := by
      rcases Nat.lt_or_ge j st.expectedAudioIndex with h | h
      · exact absurd (h1 j h) hj
      · omega
    have hbuf : st.buffer (some j) (f j) =
        ({ st with audioBuffer := (j, f j) :: st.audioBuffer }, []) := by
      simp [StreamState.buffer, hij]
    rw [hbuf]
    refine ⟨⟨?_, ?_, ?_, ?_⟩, ?_⟩
    · intro k hk
      exact List.mem_cons_of_mem _ (h1 k hk)
    · simp only
      intro hmem
      rcases List.mem_cons.mp hmem with h | h
      · omega
      · exact h2 h
    · intro i a hlk
      simp only [lookupBuf] at hlk
      by_cases hji : j = i
      · subst hji
        rw [if_pos rfl] at hlk
        have hfa : f j = a := by
          injection hlk
        exact ⟨List.mem_cons_self _ _, hfa.symm⟩
      · rw [if_neg hji] at hlk
        exact ⟨List.mem_cons_of_mem _ (h3 i a hlk).1, (h3 i a hlk).2⟩
    · intro i hmem hge
      simp only at hge ⊢
      simp only [lookupBuf]
      rcases List.mem_cons.mp hmem with h | h
      · subst h
        simp
      · have hji : j ≠ i := by
          intro hc
          exact hj (hc ▸ h)
        rw [if_neg hji]
        exact h4 i h hge
    · simp

theorem runBuffer_inv (f : Nat → String) : ∀ (l S : List Nat) (st : StreamState),
    SeqInv f S st → (∀ j ∈ l, j ∉ S) → l.Nodup →
    SeqInv f (l.reverse ++ S) (runBuffer st (l.map fun i => (some i, f i))).1 ∧
      (runBuffer st (l.map fun i => (some i, f i))).2 =
        (List.range' st.expectedAudioIndex
          ((runBuffer st (l.map fun i => (some i, f i))).1.expectedAudioIndex -
            st.expectedAudioIndex)).map fun k => ⟨some k, f k⟩ := by
  intro l
  induction l with
  | nil =>
    intro S st hInv _ _
    simpa [runBuffer] using hInv
  | cons j l ih =>
    intro S st hInv hfresh hnodup
    have hj : j ∉ S := hfresh j (List.mem_cons_self _ _)
    obtain ⟨hInv1, hout1⟩ := buffer_step_inv f S st j hInv hj
    have hfresh' : ∀ i ∈ l, i ∉ j :: S := by
      intro i hi
      intro hc
      rcases List.mem_cons.mp hc with h | h
      · rw [h] at hi
        exact (List.nodup_cons.mp hnodup).1 hi
      · exact hfresh i (List.mem_cons_of_mem _ hi) h
    obtain ⟨hInv2, hout2⟩ := ih (j :: S) (st.buffer (some j) (f j)).1 hInv1 hfresh'
      (List.nodup_cons.mp hnodup).2
    have hrun : runBuffer st (((j :: l).map fun i => (some i, f i))) =
        ((runBuffer (st.buffer (some j) (f j)).1 (l.map fun i => (some i, f i))).1,
          (st.buffer (some j) (f j)).2 ++
            (runBuffer (st.buffer (some j) (f j)).1 (l.map fun i => (some i, f i))).2) := rfl
    constructor
    · rw [hrun]
      have hset : l.reverse ++ (j :: S) = (j :: l).reverse ++ S := by
        simp

      rw [← hset]
      exact hInv2
    · rw [hrun]
      simp only
      rw [hout1, hout2]
      have hm1 := (buffer_slots st (some j) (f j)).1
      have hm2 := (runBuffer_slots (l.map fun i => (some i, f i))
        (st.buffer (some j) (f j)).1).1
      have hmid : (st.buffer (some j) (f j)).1.expectedAudioIndex =
          st.expectedAudioIndex + ((st.buffer (some j) (f j)).1.expectedAudioIndex -
            st.expectedAudioIndex) := by omega
      rw [← List.map_append]
      congr 1
      have := List.range'_append st.expectedAudioIndex
        ((st.buffer (some j) (f j)).1.expectedAudioIndex - st.expectedAudioIndex)
        ((runBuffer (st.buffer (some j) (f j)).1 (l.map fun i => (some i, f i))).1.expectedAudioIndex -
          (st.buffer (some j) (f j)).1.expectedAudioIndex) 1
      simp only [one_mul] at this
      rw [← hmid] at this
      rw [this]
      congr 1
      omega

/-! ### Interruption handler (src/services/wsManagerService.ts, lines 641-649)

The active `setupEventListeners` revision installs, on the transcription
service's `utterance` event, a handler that sends a `clear` frame on the
Twilio websocket when there are outstanding marks and the interim text is
longer than 5 characters.  The handler body contains nothing else: it does
not call `StreamService.clear`, does not touch `connection.marks`, and the
`StreamService` of this repository carries no epoch field at all. -/

/-- Outbound control messages relevant to interruption handling. -/
inductive TwilioOut
  | media (payload : String)
  | mark (name : String)
  | clear
deriving DecidableEq, Repr

/-- The slice of a manager connection the `utterance` handler can reach:
the outstanding mark labels and the connection's sequencer state. -/
structure ConnState where
  marks : List String
  stream : StreamState
deriving DecidableEq, Repr

/-- The `utterance` listener of `setupEventListeners` (lines 641-649):
`if (connection.marks.length > 0 && text?.length > 5)` send a `clear`
message; no state is mutated in either branch. -/
def onUtterance (c : ConnState) (text : String) : ConnState × List TwilioOut :=
  if 0 < c.marks.length ∧ 5 < text.length then (c, [TwilioOut.clear]) else (c, [])

/-! ### Claim theorems for the sequencer and the interruption handler -/

/-- C1: starting from a fresh sequencer (cursor 0, empty buffer), submitting
the indexed fragments `0 .. N-1` (payload `f i` for index `i`), each exactly
once in an arbitrary permuted arrival order and with no immediate-sentinel
submission, makes `sendAudio` hand the transport exactly the frames of
indices `0, 1, ..., N-1` in index order. -/
theorem c1_sequencer_orders_any_permutation (f : Nat → String) (N : Nat) (l : List Nat)
    (hl : l.Perm (List.range N)) :
    (runBuffer StreamState.init (l.map fun i => (some i, f i))).2 =
      (List.range N).map fun i => ⟨some i, f i⟩ := by
  have hInv0 : SeqInv f [] StreamState.init := by
    refine ⟨?_, ?_, ?_, ?_⟩ <;> simp [StreamState.init, lookupBuf]
  obtain ⟨hInvF, hout⟩ := runBuffer_inv f l [] StreamState.init hInv0 (by simp)
    (hl.nodup_iff.mpr (List.nodup_range N))
  obtain ⟨g1, g2, _g3, _g4⟩ := hInvF
  have hmem : ∀ x : Nat, (x ∈ l.reverse ++ ([] : List Nat)) ↔ x < N := by
    intro x
    simp [hl.mem_iff, List.mem_range]
  have hle :
      (runBuffer StreamState.init (l.map fun i => (some i, f i))).1.expectedAudioIndex ≤ N := by
    by_contra hc
    push_neg at hc
    have := (hmem N).mp (g1 N hc)
    omega
  have hge :
      N ≤ (runBuffer StreamState.init (l.map fun i => (some i, f i))).1.expectedAudioIndex := by
    by_contra hc
    push_neg at hc
    exact g2 ((hmem _).mpr hc)
  have heq :
      (runBuffer StreamState.init (l.map fun i => (some i, f i))).1.expectedAudioIndex = N := by
    omega
  rw [hout, heq]
  simp [StreamState.init, List.range_eq_range']

/-- Witness for C1 at the spec's Scenario A: arrival order `0, 2, 1` yields
send order `0, 1, 2`. -/
theorem c1_sequencer_orders_any_permutation_witness :
    ([0, 2, 1] : List Nat).Perm (List.range 3) ∧
      (runBuffer StreamState.init (([0, 2, 1] : List Nat).map
          fun i => (some i, toString i))).2 =
        (List.range 3).map fun i => ⟨some i, toString i⟩ :=
  ⟨by decide, c1_sequencer_orders_any_permutation (fun i => toString i) 3 [0, 2, 1] (by decide)⟩

/-- C5: an immediate-sentinel submission (`index === null`) is sent to the
transport right away, whatever the cursor and buffer hold, and leaves the
whole sequencer state unchanged. -/
theorem c5_immediate_sentinel_bypass (st : StreamState) (audio : String) :
    st.buffer none audio = (st, [⟨none, audio⟩]) := rfl

/-- C6: over any sequence of submissions from a fresh sequencer, duplicates
and stale indices included, at most one frame is handed to the transport per
non-null index (the indexed slots sent form a duplicate-free list). -/
theorem c6_no_index_sent_twice (subs : List (Option Nat × String)) (i : Nat) :
    List.count i (sentSlots (runBuffer StreamState.init subs).2) ≤ 1 := by
  have h := (runBuffer_slots subs StreamState.init).2
  rw [h]
  have hnd : (List.range' StreamState.init.expectedAudioIndex
      ((runBuffer StreamState.init subs).1.expectedAudioIndex -
        StreamState.init.expectedAudioIndex)).Nodup := List.nodup_range' _ _
  exact List.nodup_iff_count_le_one.mp hnd i

/-- C3 counterexample: after the two completed `buffer` calls
`buffer(0, "a"); buffer(0, "b")` the cursor is 1 yet the buffer holds key
`0 ≤ 1` — the stale duplicate was stored by the final `else` branch, not
discarded, refuting both halves of the claim. -/
theorem c3_counterexample_stale_entry_remains :
    (runBuffer StreamState.init [(some 0, "a"), (some 0, "b")]).1.expectedAudioIndex = 1 ∧
      lookupBuf (runBuffer StreamState.init [(some 0, "a"), (some 0, "b")]).1.audioBuffer 0 =
        some "b" := by decide

/-- C3 amended: a submission with `index < expectedAudioIndex` sends no
frame and leaves the cursor unchanged, but its payload is stored in the
buffer (the source's final `else` branch takes it) rather than discarded;
the stored entry is nevertheless never sent by any later submissions, since
sent indexed frames only ever carry cursor positions and the cursor never
moves down. -/
theorem c3_stale_submission_sends_nothing (st : StreamState) (i : Nat) (a : String)
    (h : i < st.expectedAudioIndex) :
    st.buffer (some i) a = ({ st with audioBuffer := (i, a) :: st.audioBuffer }, []) ∧
      ∀ subs : List (Option Nat × String),
        i ∉ sentSlots (runBuffer (st.buffer (some i) a).1 subs).2 := by
  have hne : i ≠ st.expectedAudioIndex := by omega
  have hbuf : st.buffer (some i) a =
      ({ st with audioBuffer := (i, a) :: st.audioBuffer }, []) := by
    simp [StreamState.buffer, hne]
  refine ⟨hbuf, ?_⟩
  intro subs
  have hslots := (runBuffer_slots subs (st.buffer (some i) a).1).2
  rw [hslots, List.mem_range'_1]
  have hsame : (st.buffer (some i) a).1.expectedAudioIndex = st.expectedAudioIndex := by
    rw [hbuf]
  omega

/-- Witness for C3 amended at cursor 1, stale index 0. -/
theorem c3_stale_submission_sends_nothing_witness :
    0 < (StreamState.mk 1 []).expectedAudioIndex ∧
      ((StreamState.mk 1 []).buffer (some 0) "b" =
          ({ StreamState.mk 1 [] with
              audioBuffer := (0, "b") :: (StreamState.mk 1 []).audioBuffer }, []) ∧
        ∀ subs : List (Option Nat × String),
          0 ∉ sentSlots (runBuffer ((StreamState.mk 1 []).buffer (some 0) "b").1 subs).2) :=
  ⟨by decide, c3_stale_submission_sends_nothing (StreamState.mk 1 []) 0 "b" (by decide)⟩

/-- C2 counterexample: one outstanding mark, fresh sequencer, fragment 0 of
the superseded reply still pending.  A long interim utterance fires the
interruption — `clear` is sent to the transport — yet the connection state is
untouched (no sequencer reset, no epoch bump), and when fragment 0 then
arrives it is sent to the transport, where the claim says nothing is sent. -/
theorem c2_counterexample_late_fragment_still_sent :
    (onUtterance ⟨["m1"], StreamState.init⟩ "stop now please").2 = [TwilioOut.clear] ∧
      (onUtterance ⟨["m1"], StreamState.init⟩ "stop now please").1 =
        ⟨["m1"], StreamState.init⟩ ∧
      ((onUtterance ⟨["m1"], StreamState.init⟩ "stop now please").1.stream.buffer
          (some 0) "late-audio").2 = [⟨some 0, "late-audio"⟩] := by decide

/-- C2 amended: when the barge-in condition fires (outstanding marks and
interim text longer than 5 characters) the handler sends exactly the
transport `clear` message and changes no connection state: the sequencer is
not reset (there is no epoch), so a pending fragment that afterwards arrives
at the expected index is still sent to the transport. -/
theorem c2_interruption_only_clears_transport (c : ConnState) (text audio : String)
    (h1 : 0 < c.marks.length) (h2 : 5 < text.length) :
    (onUtterance c text).2 = [TwilioOut.clear] ∧
      (onUtterance c text).1 = c ∧
      ⟨some c.stream.expectedAudioIndex, audio⟩ ∈
        ((onUtterance c text).1.stream.buffer (some c.stream.expectedAudioIndex) audio).2 := by
  have hcond : 0 < c.marks.length ∧ 5 < text.length := ⟨h1, h2⟩
  have hfire : onUtterance c text = (c, [TwilioOut.clear]) := by
    simp [onUtterance, hcond]
  refine ⟨by rw [hfire], by rw [hfire], ?_⟩
  rw [hfire]
  obtain ⟨e2, heq, _, _, _⟩ := drainFuel_spec c.stream.audioBuffer
    (keysFrom c.stream.audioBuffer (c.stream.expectedAudioIndex + 1))
    (c.stream.expectedAudioIndex + 1)
    [⟨some c.stream.expectedAudioIndex, audio⟩] (le_refl _)
  have hbuf : (c.stream.buffer (some c.stream.expectedAudioIndex) audio).2 =
      ⟨some c.stream.expectedAudioIndex, audio⟩ ::
        (List.range' (c.stream.expectedAudioIndex + 1) (e2 - (c.stream.expectedAudioIndex + 1))).map
          fun k => ⟨some k, (lookupBuf c.stream.audioBuffer k).getD ""⟩ := by
    simp only [StreamState.buffer, if_pos rfl, drain, heq]
    simp
  rw [hbuf]
  exact List.mem_cons_self _ _

/-- Witness for C2 amended at the counterexample's connection state. -/
theorem c2_interruption_only_clears_transport_witness :
    0 < (ConnState.mk ["m1"] StreamState.init).marks.length ∧
      5 < ("stop now please" : String).length ∧
      ((onUtterance (ConnState.mk ["m1"] StreamState.init) "stop now please").2 =
          [TwilioOut.clear] ∧
        (onUtterance (ConnState.mk ["m1"] StreamState.init) "stop now please").1 =
          ConnState.mk ["m1"] StreamState.init ∧
        ⟨some (ConnState.mk ["m1"] StreamState.init).stream.expectedAudioIndex, "x"⟩ ∈
          ((onUtterance (ConnState.mk ["m1"] StreamState.init) "stop now please").1.stream.buffer
            (some (ConnState.mk ["m1"] StreamState.init).stream.expectedAudioIndex) "x").2) :=
  ⟨by decide, by decide,
    c2_interruption_only_clears_transport (ConnState.mk ["m1"] StreamState.init)
      "stop now please" "x" (by decide) (by decide)⟩

/-! ### Response generator: `GptService` (services/gptService.ts) -/

/-- One conversation-context message (an entry of the `userContext` array). -/
structure GptMsg where
  role : String
  name : Option String
  content : String
deriving DecidableEq, Repr

/-- One chunk of the streamed OpenAI completion: the delta content and the
finish reason of its first choice. -/
structure Chunk where
  content : String
  finishReason : Option String
deriving DecidableEq, Repr

/-- Outcome of the OpenAI streaming round trip: either the whole stream ran,
or it threw after delivering a prefix of chunks (`failAfter [] err` is a
failure of the initial `create` call itself). -/
inductive StreamOutcome
  | ok (chunks : List Chunk)
  | failAfter (chunks : List Chunk) (err : String)
deriving DecidableEq, Repr

/-- Events `GptService` emits: `gptreply` carries the `GptReply` object
(fragment index and text) plus the interaction count; `error` comes from the
`catch` block of `completion`. -/
inductive GptEvent
  | gptreply (partialResponseIndex : Nat) (partialResponse : String) (interactionCount : Nat)
  | error (msg : String)
deriving DecidableEq, Repr

/-- State of one `GptService` instance: the conversation context and the
session-wide fragment-index cursor. -/
structure GptState where
  userContext : List GptMsg
  partialResponseIndex : Nat
deriving DecidableEq, Repr

/-- The `GptService` constructor: seeds the context with the system prompt
and the assistant greeting, and starts `partialResponseIndex` at 0.  (Every
call site — `ServiceFactory.createGptService`, `handleStreamStart` — passes
both arguments, so the constructor's `||` fallbacks to the default prompt
strings are not modelled.) -/
def GptState.init (systemPrompt greetingMessage : String) : GptState :=
  ⟨[⟨"system", none, systemPrompt⟩, ⟨"assistant", none, greetingMessage⟩], 0⟩

/-- JS `String.prototype.trim`, as the characters that remain: whitespace
stripped from both ends (written over the character list so that it reduces
in the kernel). -/
def trimChars (s : String) : List Char :=
  ((s.data.dropWhile Char.isWhitespace).reverse.dropWhile Char.isWhitespace).reverse

/-- The fragment-boundary test of `completion`:
`content.trim().slice(-1) === '•' || finishReason === 'stop'` (`slice(-1)`
is the last character, or the empty string — never `'•'` — when the trimmed
text is empty). -/
def isBoundary (chunk : Chunk) : Bool :=
  ((trimChars chunk.content).getLast? == some '•') || chunk.finishReason == some "stop"

/-- The `for await` loop of `completion`, over the chunks actually delivered:
accumulates `completeResponse` and `partialResponse`, and at each fragment
boundary emits `gptreply` with the current `partialResponseIndex`, increments
it, and resets the accumulator.  Returns `completeResponse`, the pending
(unflushed) `partialResponse`, the next index, and the emitted events. -/
def processChunks (interactionCount : Nat) :
    List Chunk → String → String → Nat → String × String × Nat × List GptEvent
  | [], complete, pending, idx => (complete, pending, idx, [])
  | chunk :: rest, complete, pending, idx =>
    let complete2 := complete ++ chunk.content
    let pending2 := pending ++ chunk.content
    if isBoundary chunk then
      let r := processChunks interactionCount rest complete2 "" (idx + 1)
      (r.1, r.2.1, r.2.2.1, GptEvent.gptreply idx pending2 interactionCount :: r.2.2.2)
    else
      processChunks interactionCount rest complete2 pending2 idx

/-- `GptService.completion(text, interactionCount)` with the streaming round
trip's outcome made explicit.  The user turn is appended to the context
before the `try`; on success the concatenated reply is appended after the
loop; on a stream failure the `catch` emits an `error` event instead — the
pending fragment is never flushed and the reply never enters the context. -/
def completion (st : GptState) (text : String) (interactionCount : Nat)
    (outcome : StreamOutcome) : GptState × List GptEvent :=
  let ctx1 := st.userContext ++ [⟨"user", none, text⟩]
  match outcome with
  | .ok chunks =>
    let r := processChunks interactionCount chunks "" "" st.partialResponseIndex
    (⟨ctx1 ++ [⟨"assistant", none, r.1⟩], r.2.2.1⟩, r.2.2.2)
  | .failAfter chunks err =>
    let r := processChunks interactionCount chunks "" "" st.partialResponseIndex
    (⟨ctx1, r.2.2.1⟩, r.2.2.2 ++ [GptEvent.error err])

/-- The fragment indices carried by the `gptreply` events of a list, in
emission order. -/
def replyIndices (evs : List GptEvent) : List Nat :=
  evs.filterMap fun e =>
    match e with
    | .gptreply i _ _ => some i
    | _ => none

theorem processChunks_indices (interactionCount : Nat) : ∀ (chunks : List Chunk)
    (complete pending : String) (idx : Nat),
    idx ≤ (processChunks interactionCount chunks complete pending idx).2.2.1 ∧
      replyIndices (processChunks interactionCount chunks complete pending idx).2.2.2 =
        List.range' idx
          ((processChunks interactionCount chunks complete pending idx).2.2.1 - idx) := by
  intro chunks
  induction chunks with
  | nil =>
    intro complete pending idx
    simp [processChunks, replyIndices]
  | cons chunk rest ih =>
    intro complete pending idx
    by_cases hb : isBoundary chunk
    · have hrw : processChunks interactionCount (chunk :: rest) complete pending idx =
          (let r := processChunks interactionCount rest (complete ++ chunk.content) ""
            (idx + 1)
           (r.1, r.2.1, r.2.2.1,
             GptEvent.gptreply idx (pending ++ chunk.content) interactionCount :: r.2.2.2)) := by
        simp [processChunks, hb]
      rw [hrw]
      obtain ⟨hle, hidx⟩ := ih (complete ++ chunk.content) "" (idx + 1)
      constructor
      · simp only
        omega
      · simp only [replyIndices, List.filterMap_cons]
        rw [← replyIndices, hidx]
        have h1 : (processChunks interactionCount rest (complete ++ chunk.content) ""
            (idx + 1)).2.2.1 - idx =
            ((processChunks interactionCount rest (complete ++ chunk.content) ""
              (idx + 1)).2.2.1 - (idx + 1)) + 1 := by omega
        rw [h1, List.range'_succ]
    · have hrw : processChunks interactionCount (chunk :: rest) complete pending idx =
          processChunks interactionCount rest (complete ++ chunk.content)
            (pending ++ chunk.content) idx := by
        simp [processChunks, hb]
      rw [hrw]
      exact ih (complete ++ chunk.content) (pending ++ chunk.content) idx

theorem processChunks_all_reply (interactionCount : Nat) : ∀ (chunks : List Chunk)
    (complete pending : String) (idx : Nat),
    ∀ e ∈ (processChunks interactionCount chunks complete pending idx).2.2.2,
      ∃ i s, e = GptEvent.gptreply i s interactionCount := by
  intro chunks
  induction chunks with
  | nil =>
    intro complete pending idx e he
    simp [processChunks] at he
  | cons chunk rest ih =>
    intro complete pending idx e he
    by_cases hb : isBoundary chunk
    · simp only [processChunks, if_pos hb, List.mem_cons] at he
      rcases he with h | h
      · exact ⟨idx, pending ++ chunk.content, h⟩
      · exact ih (complete ++ chunk.content) "" (idx + 1) e h
    · simp only [processChunks, if_neg hb] at he
      exact ih (complete ++ chunk.content) (pending ++ chunk.content) idx e he

/-! ### Synthesis service: `TtsService` (src/services/ttsService.ts) -/

/-- The `axios.post` response: HTTP status and the audio payload (the base64
re-encoding of the byte buffer is abstracted as carrying the payload
itself). -/
structure TtsResponse where
  status : Nat
  data : String
deriving DecidableEq, Repr

/-- Events `TtsService.generate` emits: `audio` on success, `error` from its
`catch` block. -/
inductive TtsEvent
  | audio (audioBase64 : String)
  | error (msg : String)
deriving DecidableEq, Repr

/-- `TtsService.generate(text)` with the `axios` round trip's outcome made
explicit (`Except.error` is the request throwing).  Empty or blank text
returns without emitting; a non-200 status throws, which — like a thrown
request — lands in the `catch` block and emits a single `error` event;
success emits one `audio` event.  Note this `generate` takes no fragment
index and synthesizes no silence placeholder anywhere. -/
def ttsGenerate (text : String) (outcome : Except String TtsResponse) : List TtsEvent :=
  if trimChars text = [] then []
  else
    match outcome with
    | .error e => [TtsEvent.error e]
    | .ok r =>
      if r.status ≠ 200 then [TtsEvent.error "Failed to generate audio"]
      else [TtsEvent.audio r.data]

/-! ### Configuration lookup, session start and the HTTP create path
(src/services/wsService.ts, src/services/wsManagerService.ts,
dtos/wsMapper.ts, controllers/wsController.ts) -/

/-- A stored call configuration (`WebSocketConfig` model). -/
structure WebSocketConfig where
  id : String
  phoneNumber : String
  prompt : String
  welcomeMessage : String
  voiceModel : String
  isActive : Bool
  basePath : String
deriving DecidableEq, Repr

/-- `WebSocketConfigService.getWebSocketConfigByPhone`: the first
configuration whose `phoneNumber` equals the argument, else the
`CONFIG_NOT_FOUND` error.  The `isActive` flag is not consulted. -/
def getWebSocketConfigByPhone (configs : List WebSocketConfig) (phoneNumber : String) :
    Except String WebSocketConfig :=
  match configs.find? (fun c => c.phoneNumber == phoneNumber) with
  | some c => Except.ok c
  | none => Except.error "CONFIG_NOT_FOUND"

/-- The fields of a Twilio `start` message `handleStreamStart` reads. -/
structure StartMsg where
  phoneNumber : Option String
  streamSid : String
  callSid : String
deriving DecidableEq, Repr

/-- `msg.start?.customParameters?.phoneNumber || 'unknown'` (JS falsy:
absent or the empty string). -/
def resolvePhone (m : StartMsg) : String :=
  match m.phoneNumber with
  | none => "unknown"
  | some s => if s = "" then "unknown" else s

/-- The per-connection pipeline `handleStreamStart` assembles on success
(the transcription and synthesis collaborators hold no modelled state). -/
structure ActiveConnection where
  config : WebSocketConfig
  gpt : GptState
  stream : StreamState
  marks : List String
  interactionCount : Nat
deriving DecidableEq, Repr

/-- `WebSocketManagerService.handleStreamStart` (lines 191-275): resolves
the configuration by phone number, and on success builds the full pipeline
(fresh `GptService` seeded from the configuration, fresh `StreamService`,
empty marks, interaction count 0); the surrounding `catch` turns a lookup
failure into `null` — no pipeline.  No `isActive` check appears on this
path. -/
def handleStreamStart (configs : List WebSocketConfig) (msg : StartMsg) :
    Option ActiveConnection :=
  match getWebSocketConfigByPhone configs (resolvePhone msg) with
  | Except.error _ => none
  | Except.ok config =>
    some ⟨config, GptState.init config.prompt config.welcomeMessage, StreamState.init, [], 0⟩

/-- A JS value as it may arrive in the `isActive` field of a JSON request
body. -/
inductive JsVal
  | jbool (b : Bool)
  | jstr (s : String)
deriving DecidableEq, Repr

/-- The create-request body fields the mapper reads. -/
structure CreateBody where
  id : String
  phoneNumber : String
  prompt : String
  welcomeMessage : String
  voiceModel : String
  isActive : Option JsVal
deriving DecidableEq, Repr

/-- The `CrearWebSocketConfigDTO` as `fromRequest` fills it. -/
structure CrearWebSocketConfigDTO where
  id : String
  phoneNumber : String
  prompt : String
  welcomeMessage : String
  voiceModel : String
  isActive : Bool
deriving DecidableEq, Repr

/-- `WebSocketConfigMapper.fromRequest`: absent `isActive` defaults to true,
otherwise `body.isActive === true || body.isActive === 'true'`. -/
def fromRequest (body : CreateBody) : CrearWebSocketConfigDTO :=
  ⟨body.id, body.phoneNumber, body.prompt, body.welcomeMessage, body.voiceModel,
    match body.isActive with
    | none => true
    | some v => v == JsVal.jbool true || v == JsVal.jstr "true"⟩

/-- `WebSocketConfigMapper.toWebSocketConfig`: note the JS
`config.isActive = dto.isActive || true`.  The DTO carries no `basePath`
(the service recomputes it), modelled as the empty string here. -/
def toWebSocketConfig (dto : CrearWebSocketConfigDTO) : WebSocketConfig :=
  ⟨dto.id, dto.phoneNumber, dto.prompt, dto.welcomeMessage, dto.voiceModel,
    dto.isActive || true, ""⟩

/-- `WebSocketConfigService.createWebSocketConfig`'s `plainData`:
`isActive: data.isActive ?? true` (`??` is the identity here — the field is
non-optional — kept as `Option.getD` for fidelity) and `basePath` recomputed
from the id. -/
def serviceCreateConfig (data : WebSocketConfig) : WebSocketConfig :=
  { data with
      isActive := (some data.isActive).getD true,
      basePath := "/connection/" ++ data.id }

/-! ### Claim theorems for generation, synthesis and configuration -/

/-- C4 counterexample: a failed synthesis request for the non-empty text
`"Hola"` makes `generate` emit exactly one `error` event — no speech/audio
event, no silence placeholder at any index, so the fragment is dropped,
contrary to the claim. -/
theorem c4_counterexample_failure_emits_no_audio :
    ttsGenerate "Hola" (Except.error "network down") = [TtsEvent.error "network down"] ∧
      ∀ b, TtsEvent.audio b ∉ ttsGenerate "Hola" (Except.error "network down") := by
  have h : ttsGenerate "Hola" (Except.error "network down") =
      [TtsEvent.error "network down"] := by decide
  refine ⟨h, ?_⟩
  intro b
  rw [h]
  simp

/-- C4 amended: when the synthesis request fails, `TtsService.generate`
emits exactly one `error` event and no audio event at all: the fragment is
dropped rather than degraded to a fixed-duration silence placeholder (this
revision's `generate` carries no fragment index that could be re-emitted). -/
theorem c4_failure_drops_fragment (text err : String) (h : ¬ trimChars text = []) :
    ttsGenerate text (Except.error err) = [TtsEvent.error err] ∧
      ∀ b, TtsEvent.audio b ∉ ttsGenerate text (Except.error err) := by
  have heq : ttsGenerate text (Except.error err) = [TtsEvent.error err] := by
    simp [ttsGenerate, h]
  refine ⟨heq, ?_⟩
  intro b
  rw [heq]
  simp

/-- Witness for C4 amended at the counterexample's input. -/
theorem c4_failure_drops_fragment_witness :
    ¬ trimChars "Hola" = [] ∧
      (ttsGenerate "Hola" (Except.error "boom") = [TtsEvent.error "boom"] ∧
        ∀ b, TtsEvent.audio b ∉ ttsGenerate "Hola" (Except.error "boom")) :=
  ⟨by decide, c4_failure_drops_fragment "Hola" "boom" (by decide)⟩

/-- C7: when the language-model stream fails after delivering any prefix of
chunks, `completion` emits exactly the fragment events that prefix had
already produced followed by one session-level `error` event — so no reply
fragment is emitted after the point of failure, the pending accumulated
partial reply is never flushed (the events equal those of a successful run
over the same delivered chunks, which flushes only at boundaries), every
non-error event is a `gptreply` of this interaction, and the conversation
context gains only the user turn (no partial reply is recorded), leaving the
service ready for the next utterance. -/
theorem c7_generation_failure_abandons_interaction (st : GptState) (text : String)
    (interactionCount : Nat) (chunks : List Chunk) (err : String) :
    (completion st text interactionCount (.failAfter chunks err)).2 =
        (completion st text interactionCount (.ok chunks)).2 ++ [GptEvent.error err] ∧
      (∀ e ∈ (completion st text interactionCount (.ok chunks)).2,
        ∃ i s, e = GptEvent.gptreply i s interactionCount) ∧
      (completion st text interactionCount (.failAfter chunks err)).1.userContext =
        st.userContext ++ [⟨"user", none, text⟩] := by
  refine ⟨rfl, ?_, rfl⟩
  intro e he
  exact processChunks_all_reply interactionCount chunks "" "" st.partialResponseIndex e he

/-- C8 counterexample: two successive interactions on one `GptService`; the
second interaction's first (and only) fragment carries index 1, not the
index 0 the claim requires for every interaction — the cursor is not reset
by `completion`. -/
theorem c8_counterexample_index_not_reset :
    (completion
        (completion (GptState.init "p" "w") "hi" 0
          (.ok [⟨"Hello", some "stop"⟩])).1
        "again" 1 (.ok [⟨"World", some "stop"⟩])).2 =
      [GptEvent.gptreply 1 "World" 1] := by decide

/-- C8 amended: `partialResponseIndex` starts at 0 when the service is
constructed and is never reset by `completion`; each call emits its
fragments with consecutive, strictly increasing indices continuing from the
session-wide running value (so the first fragment of the first interaction
carries index 0, and later interactions continue where the previous one
stopped). -/
theorem c8_fragment_indices_run_on (p w text : String) (st : GptState)
    (interactionCount : Nat) (chunks : List Chunk) :
    (GptState.init p w).partialResponseIndex = 0 ∧
      st.partialResponseIndex ≤
        (completion st text interactionCount (.ok chunks)).1.partialResponseIndex ∧
      replyIndices (completion st text interactionCount (.ok chunks)).2 =
        List.range' st.partialResponseIndex
          ((completion st text interactionCount (.ok chunks)).1.partialResponseIndex -
            st.partialResponseIndex) := by
  obtain ⟨hle, hidx⟩ :=
    processChunks_indices interactionCount chunks "" "" st.partialResponseIndex
  exact ⟨rfl, hle, hidx⟩

/-- C9 counterexample: a configuration matching the callee's phone number
but with `isActive = false` does not fail session start: `handleStreamStart`
still assembles the full pipeline, where the claim says the inactive flag is
fatal and no pipeline is set up. -/
theorem c9_counterexample_inactive_config_starts :
    (WebSocketConfig.mk "cfg1" "5550000" "p" "w" "aura" false "/connection/cfg1").isActive =
        false ∧
      (handleStreamStart
          [WebSocketConfig.mk "cfg1" "5550000" "p" "w" "aura" false "/connection/cfg1"]
          (StartMsg.mk (some "5550000") "MZ1" "CA1")).isSome = true := by decide

/-- C9 amended: session start yields no pipeline exactly when the
configuration lookup fails, and the lookup fails — with the
`CONFIG_NOT_FOUND` error — exactly when no stored configuration matches the
resolved callee phone number; the `isActive` flag is never consulted, so any
matching configuration, inactive ones included, yields the fully assembled
pipeline. -/
theorem c9_start_fails_only_on_missing_config (configs : List WebSocketConfig)
    (msg : StartMsg) :
    (handleStreamStart configs msg = none ↔
        getWebSocketConfigByPhone configs (resolvePhone msg) =
          Except.error "CONFIG_NOT_FOUND") ∧
      (getWebSocketConfigByPhone configs (resolvePhone msg) =
          Except.error "CONFIG_NOT_FOUND" ↔
        ∀ c ∈ configs, c.phoneNumber ≠ resolvePhone msg) ∧
      ∀ c, getWebSocketConfigByPhone configs (resolvePhone msg) = Except.ok c →
        handleStreamStart configs msg =
          some ⟨c, GptState.init c.prompt c.welcomeMessage, StreamState.init, [], 0⟩ := by
  refine ⟨?_, ?_, ?_⟩
  · cases h : getWebSocketConfigByPhone configs (resolvePhone msg) with
    | error e =>
      have he : e = "CONFIG_NOT_FOUND" := by
        simp only [getWebSocketConfigByPhone] at h
        cases hf : configs.find? (fun c => c.phoneNumber == resolvePhone msg) with
        | some c =>
          rw [hf] at h
          exact Except.noConfusion h
        | none =>
          rw [hf] at h
          injection h with h2
          exact h2.symm
      subst he
      simp [handleStreamStart, h]
    | ok c =>
      simp [handleStreamStart, h]
  · simp only [getWebSocketConfigByPhone]
    cases hf : configs.find? (fun c => c.phoneNumber == resolvePhone msg) with
    | some c =>
      simp only [Except.ok.injEq]
      constructor
      · intro h
        exact Except.noConfusion h
      · intro hall
        have := List.find?_some hf
        have hmem := List.mem_of_find?_eq_some hf
        rw [beq_iff_eq] at this
        exact absurd this (hall c hmem)
    | none =>
      simp only
      constructor
      · intro _
        intro c hc
        have := List.find?_eq_none.mp hf c hc
        rw [beq_iff_eq] at this
        exact this
      · intro _
        trivial
  · intro c hc
    simp [handleStreamStart, hc]

/-- C10: every configuration stored through the controller's create path —
`fromRequest`, then `toWebSocketConfig`, then the service's create — has
`isActive = true`, even when the request body explicitly carries
`isActive: false`, because the mapper computes `dto.isActive || true`. -/
theorem c10_create_always_active (body : CreateBody) :
    (serviceCreateConfig (toWebSocketConfig (fromRequest body))).isActive = true := by
  simp [serviceCreateConfig, toWebSocketConfig, fromRequest]

end TwilioWs
